import Mathlib

/-!
Verification of the COXPRESdb loading core of gene-conservation-network.

The embedding models, from the source:
- gene_conservation_network/io.py: the dataset locator, the record parser
  (load_coxpresdb_coexpression) and the pandera CoexpressionSchema check;
- scripts/transform_coxpresdb_data.py: process_zip_file, the batch exporter
  over one archive, with the output-existence skip path.

Modelling conventions:
- Python ints are Lean Int (both arbitrary precision).
- Python floats are modelled as exact rationals (Rat): the code performs no
  float arithmetic, it only parses literals, stores them and checks their
  type, so the value representation is exact on every path the claims use.
  Non-finite literals (inf, nan) and underscore digit grouping are outside
  the modelled literal grammar.
- A ZIP archive is a list of (member name, member content) pairs; the
  filesystem directory is the list of filenames it contains.
- pandas DataFrame is a list of named columns of cell values; the pandera
  strict schema check is a boolean predicate on it.
-/

namespace GeneConservation

/-! ### Models of the Python string and number primitives used by io.py -/

/-- Whitespace characters stripped by Python str.strip on this data. -/
def wsChar (c : Char) : Bool := c = ' ' || c = '\t' || c = '\n' || c = '\r'

/-- Python str.strip(): drop whitespace from both ends. -/
def trimChars (cs : List Char) : List Char :=
  ((cs.dropWhile wsChar).reverse.dropWhile wsChar).reverse

/-- Python str.split(sep) for a one-character separator: "".split(sep) is
[""], and n separators produce n+1 fields. -/
def splitOnChar (sep : Char) : List Char → List (List Char)
  | [] => [[]]
  | c :: rest =>
    let r := splitOnChar sep rest
    if c = sep then [] :: r
    else
      match r with
      | f :: t => (c :: f) :: t
      | [] => [[c]]

/-- Decimal digit run to a natural number. -/
def digitsToNat (cs : List Char) : Nat :=
  cs.foldl (fun a c => a * 10 + (c.toNat - 48)) 0

/-- A nonempty, all-decimal-digit character run. -/
def allDigits (cs : List Char) : Bool := !cs.isEmpty && cs.all Char.isDigit

/-- Python int(s): optional surrounding whitespace, optional sign, then a
nonempty digit run; anything else raises ValueError, modelled as none. -/
def pyIntChars (cs : List Char) : Option Int :=
  match trimChars cs with
  | '+' :: rest => if allDigits rest then some (digitsToNat rest : Int) else none
  | '-' :: rest => if allDigits rest then some (-(digitsToNat rest : Int)) else none
  | ds => if allDigits ds then some (digitsToNat ds : Int) else none

def pyInt (s : String) : Option Int := pyIntChars s.toList

/-- Decimal mantissa digits [. digits]: numerator and the power of ten of
the denominator. Python accepts "1.", ".5" but not "." alone. -/
def parseMantissa (cs : List Char) : Option (Nat × Nat) :=
  match splitOnChar '.' cs with
  | [ip] => if allDigits ip then some (digitsToNat ip, 0) else none
  | [ip, fp] =>
    if (!ip.isEmpty || !fp.isEmpty) && ip.all Char.isDigit && fp.all Char.isDigit then
      some (digitsToNat ip * 10 ^ fp.length + digitsToNat fp, fp.length)
    else none
  | _ => none

/-- Exponent part after the e: optional sign, nonempty digit run. -/
def parseExpPart (cs : List Char) : Option Int :=
  match cs with
  | '+' :: rest => if allDigits rest then some (digitsToNat rest : Int) else none
  | '-' :: rest => if allDigits rest then some (-(digitsToNat rest : Int)) else none
  | _ => if allDigits cs then some (digitsToNat cs : Int) else none

/-- Assemble the exact rational value of a parsed float literal. -/
def ratOfParts (neg : Bool) (num : Nat) (pow10 : Nat) (e : Int) : Rat :=
  let n : Int := if neg then -(num : Int) else (num : Int)
  match e with
  | Int.ofNat k => mkRat (n * (10 : Int) ^ k) (10 ^ pow10)
  | Int.negSucc k => mkRat n (10 ^ pow10 * 10 ^ (k + 1))

/-- Mantissa with optional scientific exponent, sign already removed. -/
def pyFloatBody (neg : Bool) (cs : List Char) : Option Rat :=
  match splitOnChar 'e' (cs.map fun c => if c = 'E' then 'e' else c) with
  | [m] => (parseMantissa m).map (fun p => ratOfParts neg p.1 p.2 0)
  | [m, ex] =>
    match parseMantissa m, parseExpPart ex with
    | some p, some e => some (ratOfParts neg p.1 p.2 e)
    | _, _ => none
  | _ => none

/-- Python float(s) on finite decimal and scientific literals; malformed
text raises ValueError, modelled as none. -/
def pyFloatChars (cs : List Char) : Option Rat :=
  match trimChars cs with
  | '+' :: rest => pyFloatBody false rest
  | '-' :: rest => pyFloatBody true rest
  | ds => pyFloatBody false ds

def pyFloat (s : String) : Option Rat := pyFloatChars s.toList

/-- Python str.title(): the first letter of each alphabetic run is
uppercased, the rest lowercased. -/
def titleStep (acc : List Char × Bool) (c : Char) : List Char × Bool :=
  if c.isAlpha then (acc.1 ++ [if acc.2 then c.toLower else c.toUpper], true)
  else (acc.1 ++ [c], false)

def pyTitle (s : String) : String :=
  String.mk (s.toList.foldl titleStep ([], false)).1

/-! ### The record data model (section 3 of the spec, io.py lines 94-103) -/

/-- One emitted coexpression record. -/
structure CoexpressionRecord where
  gene_id_1 : Int
  gene_id_2 : Int
  association : Rat
deriving DecidableEq, Repr

/-- A ZIP archive: member names with their decoded text contents. -/
abbrev Archive := List (String × String)

/-! ### The record parser (io.py lines 70-105) -/

/-- One line of a member body (io.py lines 87-105): tab-split, at least two
fields, int then float; otherwise the line is skipped. -/
def parseLine (g : Int) (line : List Char) : Option CoexpressionRecord :=
  if line.isEmpty then none
  else
    match splitOnChar '\t' line with
    | p0 :: p1 :: _ =>
      match pyIntChars p0, pyFloatChars p1 with
      | some g2, some a => some ⟨g, g2, a⟩
      | _, _ => none
    | _ => none

/-- content.strip().split(chr 10) of io.py line 85. -/
def memberLines (content : String) : List (List Char) :=
  splitOnChar '\n' (trimChars content.toList)

/-- All records of one member whose name parsed as gene_id_1 = g. -/
def parseMember (g : Int) (content : String) : List CoexpressionRecord :=
  (memberLines content).filterMap (parseLine g)

/-- io.py lines 73-75: drop directory entries and hidden members. -/
def keepName (f : String) : Bool :=
  !(['/'].isSuffixOf f.toList) && !(['.'].isPrefixOf f.toList)

def memberList (ar : Archive) : Archive :=
  ar.filter (fun m => keepName m.1)

/-- Records contributed by one member: none when its name is not an
integer (io.py lines 78-81), its parsed lines otherwise. -/
def memberRecords (m : String × String) : List CoexpressionRecord :=
  match pyInt m.1 with
  | some g => parseMember g m.2
  | none => []

/-- The full member loop of io.py lines 77-105. -/
def parseArchive (ar : Archive) : List CoexpressionRecord :=
  (memberList ar).foldr (fun m acc => memberRecords m ++ acc) []

/-! ### DataFrame assembly and the pandera schema (io.py lines 10-16, 107-111) -/

/-- A pandas cell value. -/
inductive PyValue where
  | int (n : Int)
  | float (q : Rat)
  | str (s : String)
  | null
deriving DecidableEq, Repr

/-- A pandas DataFrame: named columns of cell values. -/
structure DataFrame where
  cols : List (String × List PyValue)
deriving DecidableEq, Repr

/-- pd.DataFrame(records): no records give a frame with no columns at all;
otherwise the three record keys become the columns, in insertion order. -/
def mkDataFrame (records : List CoexpressionRecord) : DataFrame :=
  if records.isEmpty then ⟨[]⟩
  else
    ⟨[("gene_id_1", records.map fun r => PyValue.int r.gene_id_1),
      ("gene_id_2", records.map fun r => PyValue.int r.gene_id_2),
      ("association", records.map fun r => PyValue.float r.association)]⟩

def isIntVal : PyValue → Bool
  | PyValue.int _ => true
  | _ => false

def isFloatVal : PyValue → Bool
  | PyValue.float _ => true
  | _ => false

def colLookup (df : DataFrame) (name : String) : Option (List PyValue) :=
  df.cols.lookup name

/-- CoexpressionSchema.validate with strict config: gene_id_1 and gene_id_2
present and integer-typed, association present and float-typed, and no
column outside the schema. -/
def validateDataFrame (df : DataFrame) : Bool :=
  (match colLookup df "gene_id_1" with
   | some vs => vs.all isIntVal
   | none => false)
  && (match colLookup df "gene_id_2" with
      | some vs => vs.all isIntVal
      | none => false)
  && (match colLookup df "association" with
      | some vs => vs.all isFloatVal
      | none => false)
  && df.cols.all (fun c => c.1 == "gene_id_1" || c.1 == "gene_id_2" || c.1 == "association")

/-! ### The dataset locator (io.py lines 41-68) -/

/-- The error kinds of section 7 of the spec, refining the ValueError,
FileNotFoundError and pandera SchemaError raised by io.py. -/
inductive LoadError where
  | invalidArgument (msg : String)
  | notFound (msg : String)
  | ambiguousSelection (candidates : List String)
  | schemaViolation
deriving DecidableEq, Repr

deriving instance DecidableEq for Except

/-- io.py line 45. -/
def modalityMap : List (String × String) :=
  [("microarray", "m"), ("rna-seq", "r"), ("union", "u")]

/-- Lexicographic code-point comparison of char lists: the order Python
sorted() uses on the matched filenames. -/
def charLe : List Char → List Char → Bool
  | [], _ => true
  | _ :: _, [] => false
  | a :: as, b :: bs =>
    if a.toNat < b.toNat then true
    else if b.toNat < a.toNat then false
    else charLe as bs

def fileLe (a b : String) : Prop := charLe a.toList b.toList = true

instance : DecidableRel fileLe := fun _ _ => instDecidableEqBool _ _

/-- A filename matches the glob stem-star-".zip" pattern of io.py line 53
iff it begins with the stem, ends in ".zip" and is long enough that the
two do not overlap. -/
def globMatch (stem : String) (n : String) : Bool :=
  stem.toList.isPrefixOf n.toList && ['.', 'z', 'i', 'p'].isSuffixOf n.toList
    && decide (stem.toList.length + 4 ≤ n.toList.length)

/-- The fixed part of the glob pattern: "version or species" is Python
or, so an empty version string falls back to the species. -/
def patStem (species code : String) (version : Option String) : String :=
  (match version with
   | Option.none => pyTitle species
   | some v => if v = "" then pyTitle species else v) ++ "-" ++ code ++ "."

/-- sorted(Path(data_dir).glob(pattern)) of io.py line 54. -/
def sortedMatches (stem : String) (names : List String) : List String :=
  List.insertionSort fileLe (names.filter (fun n => globMatch stem n))

/-- io.py lines 41-68: resolve (species, modality, version) against the
directory listing to the single archive filename to load. -/
def locate (species modality : String) (names : List String) (version : Option String) :
    Except LoadError String :=
  match modalityMap.lookup modality with
  | Option.none =>
    Except.error (LoadError.invalidArgument
      ("Invalid modality: " ++ modality ++ ". Must be one of: microarray, rna-seq, union"))
  | some code =>
    match sortedMatches (patStem species code version) names with
    | [] => Except.error (LoadError.notFound "No ZIP file found matching pattern")
    | m :: ms =>
      if 0 < ms.length ∧ version = Option.none then
        Except.error (LoadError.ambiguousSelection (m :: ms))
      else Except.ok (ms.getLastD m)

/-- io.py lines 70-113 after the locator: parse the archive, assemble the
DataFrame and run the strict schema check. -/
def loadArchive (ar : Archive) : Except LoadError DataFrame :=
  let df := mkDataFrame (parseArchive ar)
  if validateDataFrame df then Except.ok df else Except.error LoadError.schemaViolation

/-- load_coxpresdb_coexpression over a directory of archives. -/
def load (species modality : String) (files : List (String × Archive))
    (version : Option String) : Except LoadError DataFrame :=
  match locate species modality (files.map Prod.fst) version with
  | Except.error e => Except.error e
  | Except.ok zipName => loadArchive ((files.lookup zipName).getD [])

/-! ### The batch exporter (transform_coxpresdb_data.py lines 33-141) -/

/-- The per-archive statistics dict of process_zip_file. -/
structure ZipStats where
  files_processed : Nat
  files_failed : Nat
  records_total : Nat
  errors : List String
deriving DecidableEq, Repr

/-- The state threaded through the member loop: the statistics, the set of
gene ids with an output artifact on disk, the outputs written by this run,
and the genes for which the output-existence skip fired. -/
structure ZipRun where
  stats : ZipStats
  existing : List Int
  written : List Int
  skipped : List Int
deriving DecidableEq, Repr

def initRun (existing0 : List Int) : ZipRun :=
  ⟨⟨0, 0, 0, []⟩, existing0, [], []⟩

/-- One iteration of the member loop (transform_coxpresdb_data.py lines
72-135): skip non-integer names; count and skip genes whose output exists;
otherwise parse, and when any record came out validate and write. -/
def processMember (st : ZipRun) (m : String × String) : ZipRun :=
  match pyInt m.1 with
  | Option.none => st
  | some g =>
    if g ∈ st.existing then
      { st with
        stats := { st.stats with files_processed := st.stats.files_processed + 1 }
        skipped := st.skipped ++ [g] }
    else
      let recs := parseMember g m.2
      if recs.isEmpty then
        { st with stats := { st.stats with files_processed := st.stats.files_processed + 1 } }
      else if validateDataFrame (mkDataFrame recs) then
        { st with
          stats := { st.stats with
            files_processed := st.stats.files_processed + 1
            records_total := st.stats.records_total + recs.length }
          existing := st.existing ++ [g]
          written := st.written ++ [g] }
      else
        { st with
          stats := { st.stats with
            files_failed := st.stats.files_failed + 1
            errors := st.stats.errors ++ ["Schema validation failed"] } }

/-- process_zip_file on one archive, given the gene ids that already have
an output artifact under the dataset output directory. -/
def processZipFile (members : Archive) (existing0 : List Int) : ZipRun :=
  (memberList members).foldl processMember (initRun existing0)

/-- The gene ids of the members the loop does not skip at the name step. -/
def memberGenes (ms : Archive) : List Int :=
  ms.filterMap (fun m => pyInt m.1)

/-! ### Helper lemmas -/

theorem validate_mkDataFrame_cons (r : CoexpressionRecord) (rs : List CoexpressionRecord) :
    validateDataFrame (mkDataFrame (r :: rs)) = true := by
  simp [mkDataFrame, validateDataFrame, colLookup, List.lookup, isIntVal, isFloatVal,
    List.all_eq_true]

theorem charLe_refl (cs : List Char) : charLe cs cs = true := by
  induction cs with
  | nil => rfl
  | cons a as ih => simp [charLe, Nat.lt_irrefl, ih]

theorem charLe_total (as : List Char) : ∀ bs, charLe as bs = true ∨ charLe bs as = true := by
  induction as with
  | nil => intro bs; left; rfl
  | cons a as ih =>
    intro bs
    cases bs with
    | nil => right; rfl
    | cons b bs =>
      rcases Nat.lt_trichotomy a.toNat b.toNat with h | h | h
      · left; simp [charLe, h]
      · simpa [charLe, h, Nat.lt_irrefl] using ih bs
      · right; simp [charLe, h]

theorem charLe_trans : ∀ (as bs cs : List Char),
    charLe as bs = true → charLe bs cs = true → charLe as cs = true
  | [], _, _, _, _ => rfl
  | _ :: _, [], _, h1, _ => by simp [charLe] at h1
  | _ :: _, _ :: _, [], _, h2 => by simp [charLe] at h2
  | a :: as, b :: bs, c :: cs, h1, h2 => by
    simp only [charLe] at h1 h2 ⊢
    by_cases hab : a.toNat < b.toNat
    · by_cases hbc : b.toNat < c.toNat
      · simp [Nat.lt_trans hab hbc]
      · by_cases hcb : c.toNat < b.toNat
        · simp [hbc, hcb] at h2
        · have hac : a.toNat < c.toNat := by omega
          simp [hac]
    · by_cases hba : b.toNat < a.toNat
      · simp [hab, hba] at h1
      · by_cases hbc : b.toNat < c.toNat
        · have hac : a.toNat < c.toNat := by omega
          simp [hac]
        · by_cases hcb : c.toNat < b.toNat
          · simp [hbc, hcb] at h2
          · have hac1 : ¬ a.toNat < c.toNat := by omega
            have hac2 : ¬ c.toNat < a.toNat := by omega
            simp only [hac1, hac2, if_false]
            simp only [hab, hba, if_false] at h1
            simp only [hbc, hcb, if_false] at h2
            exact charLe_trans as bs cs h1 h2

theorem fileLe_refl (s : String) : fileLe s s := charLe_refl s.toList

instance : IsTotal String fileLe :=
  ⟨fun a b => charLe_total a.toList b.toList⟩

instance : IsTrans String fileLe :=
  ⟨fun _ _ _ h1 h2 => charLe_trans _ _ _ h1 h2⟩

theorem getLastD_mem {α : Type} (l : List α) (a : α) : l.getLastD a ∈ a :: l := by
  induction l generalizing a with
  | nil => simp
  | cons b bs ih =>
    rw [List.getLastD_cons]
    rcases List.mem_cons.mp (ih b) with h | h
    · rw [h]; exact List.mem_cons_of_mem a (List.mem_cons_self b bs)
    · exact List.mem_cons_of_mem a (List.mem_cons_of_mem b h)

theorem sorted_getLastD_max (l : List String) (a : String)
    (h : List.Sorted fileLe (a :: l)) : ∀ x ∈ a :: l, fileLe x (l.getLastD a) := by
  induction l generalizing a with
  | nil => intro x hx; simp only [List.mem_singleton] at hx; simpa [hx] using fileLe_refl a
  | cons b bs ih =>
    rcases List.sorted_cons.mp h with ⟨ha, h'⟩
    intro x hx
    rw [List.getLastD_cons]
    rcases List.mem_cons.mp hx with hxa | hxl
    · exact hxa ▸ ha _ (getLastD_mem bs b)
    · exact ih b h' x hxl

/-- One step never makes the existing-output set smaller. -/
theorem existing_subset_processMember (st : ZipRun) (m : String × String) :
    st.existing ⊆ (processMember st m).existing := by
  unfold processMember
  cases pyInt m.1 with
  | none => exact fun _ h => h
  | some g =>
    by_cases hc : g ∈ st.existing
    · simp [hc]
    · simp only [hc, if_false]
      cases hr : (parseMember g m.2).isEmpty
      · cases hv : validateDataFrame (mkDataFrame (parseMember g m.2))
        · simp [hr, hv]
        · simp [hr, hv]
      · simp [hr]

/-- One step never removes a recorded skip. -/
theorem skipped_subset_processMember (st : ZipRun) (m : String × String) :
    st.skipped ⊆ (processMember st m).skipped := by
  unfold processMember
  cases pyInt m.1 with
  | none => exact fun _ h => h
  | some g =>
    by_cases hc : g ∈ st.existing
    · simp only [hc, if_true]; exact fun x h => List.mem_append_left _ h
    · simp only [hc, if_false]
      cases hr : (parseMember g m.2).isEmpty
      · cases hv : validateDataFrame (mkDataFrame (parseMember g m.2))
        · simp [hr, hv]
        · simp [hr, hv]
      · simp [hr]

theorem existing_subset_foldl (ms : Archive) (st : ZipRun) :
    st.existing ⊆ (ms.foldl processMember st).existing := by
  induction ms generalizing st with
  | nil => exact fun _ h => h
  | cons m ms ih =>
    rw [List.foldl_cons]
    exact fun x h => ih (processMember st m) (existing_subset_processMember st m h)

theorem skipped_subset_foldl (ms : Archive) (st : ZipRun) :
    st.skipped ⊆ (ms.foldl processMember st).skipped := by
  induction ms generalizing st with
  | nil => exact fun _ h => h
  | cons m ms ih =>
    rw [List.foldl_cons]
    exact fun x h => ih (processMember st m) (skipped_subset_processMember st m h)

/-- Every member contributes exactly one to files_processed when its name
parses, none otherwise; the failure branch is unreachable because a
nonempty record list always passes the schema check. -/
theorem processed_processMember (st : ZipRun) (m : String × String) :
    (processMember st m).stats.files_processed
      = st.stats.files_processed + (memberGenes [m]).length := by
  unfold processMember
  cases hg : pyInt m.1 with
  | none => simp [memberGenes, hg]
  | some g =>
    have hlen : (memberGenes [m]).length = 1 := by simp [memberGenes, hg]
    rw [hlen]
    by_cases hc : g ∈ st.existing
    · simp [hc]
    · simp only [hc, if_false]
      cases hr : parseMember g m.2 with
      | nil => simp
      | cons r rs => simp [validate_mkDataFrame_cons]

theorem processed_foldl (ms : Archive) (st : ZipRun) :
    (ms.foldl processMember st).stats.files_processed
      = st.stats.files_processed + (memberGenes ms).length := by
  induction ms generalizing st with
  | nil => simp [memberGenes]
  | cons m ms ih =>
    rw [List.foldl_cons, ih, processed_processMember]
    cases hg : pyInt m.1 <;> simp [memberGenes, hg, List.filterMap_cons] <;> omega

/-- After the run, every gene whose member parses to at least one record
has an output artifact. -/
theorem coverage_processMember (st : ZipRun) (m : String × String) (g : Int)
    (hg : pyInt m.1 = some g) (hr : (parseMember g m.2).isEmpty = false) :
    g ∈ (processMember st m).existing := by
  unfold processMember
  rw [hg]
  by_cases hc : g ∈ st.existing
  · simpa [hc] using hc
  · simp only [hc, if_false]
    cases hrr : parseMember g m.2 with
    | nil => rw [hrr] at hr; simp at hr
    | cons r rs => simp [hrr, validate_mkDataFrame_cons]

theorem coverage_foldl (ms : Archive) (st : ZipRun) (m : String × String) (g : Int)
    (hm : m ∈ ms) (hg : pyInt m.1 = some g) (hr : (parseMember g m.2).isEmpty = false) :
    g ∈ (ms.foldl processMember st).existing := by
  induction ms generalizing st with
  | nil => cases hm
  | cons a as ih =>
    rw [List.foldl_cons]
    rcases List.mem_cons.mp hm with hma | hmas
    · exact existing_subset_foldl as _ (hma ▸ coverage_processMember st a g (hma ▸ hg) (hma ▸ hr))
    · exact ih _ hmas

/-- A step on a member whose gene already has an output changes neither
the existing set, the written list, nor the record count. -/
theorem saturated_processMember (st : ZipRun) (m : String × String)
    (hsat : ∀ g, pyInt m.1 = some g → (parseMember g m.2).isEmpty = false → g ∈ st.existing) :
    (processMember st m).existing = st.existing
      ∧ (processMember st m).written = st.written
      ∧ (processMember st m).stats.records_total = st.stats.records_total := by
  unfold processMember
  cases hg : pyInt m.1 with
  | none => exact ⟨rfl, rfl, rfl⟩
  | some g =>
    by_cases hc : g ∈ st.existing
    · simp [hc]
    · simp only [hc, if_false]
      cases hr : (parseMember g m.2).isEmpty
      · exact absurd (hsat g hg hr) hc
      · simp [hr]

theorem saturated_foldl (ms : Archive) (st : ZipRun)
    (hsat : ∀ m ∈ ms, ∀ g, pyInt m.1 = some g →
      (parseMember g m.2).isEmpty = false → g ∈ st.existing) :
    (ms.foldl processMember st).existing = st.existing
      ∧ (ms.foldl processMember st).written = st.written
      ∧ (ms.foldl processMember st).stats.records_total = st.stats.records_total := by
  induction ms generalizing st with
  | nil => exact ⟨rfl, rfl, rfl⟩
  | cons a as ih =>
    rw [List.foldl_cons]
    have hstep := saturated_processMember st a (hsat a (List.mem_cons_self a as))
    have hsat' : ∀ m ∈ as, ∀ g, pyInt m.1 = some g →
        (parseMember g m.2).isEmpty = false → g ∈ (processMember st a).existing := by
      intro m hm g hg hr
      rw [hstep.1]
      exact hsat m (List.mem_cons_of_mem a hm) g hg hr
    have h' := ih (processMember st a) hsat'
    exact ⟨h'.1.trans hstep.1, h'.2.1.trans hstep.2.1, h'.2.2.trans hstep.2.2⟩

/-- In a saturated run (every record-yielding gene already has an output)
the existence check fires for each such gene. -/
theorem skipped_coverage_foldl (ms : Archive) (st : ZipRun)
    (hsat : ∀ m ∈ ms, ∀ g, pyInt m.1 = some g →
      (parseMember g m.2).isEmpty = false → g ∈ st.existing) :
    ∀ m ∈ ms, ∀ g, pyInt m.1 = some g → (parseMember g m.2).isEmpty = false →
      g ∈ (ms.foldl processMember st).skipped := by
  induction ms generalizing st with
  | nil => intro m hm; cases hm
  | cons a as ih =>
    intro m hm g hg hr
    rw [List.foldl_cons]
    have hstep := saturated_processMember st a (hsat a (List.mem_cons_self a as))
    rcases List.mem_cons.mp hm with hma | hmas
    · subst hma
      have hc : g ∈ st.existing := hsat m (List.mem_cons_self m as) g hg hr
      have hskip : g ∈ (processMember st m).skipped := by
        unfold processMember
        rw [hg]
        simp [hc]
      exact skipped_subset_foldl as _ hskip
    · have hsat' : ∀ m' ∈ as, ∀ g', pyInt m'.1 = some g' →
          (parseMember g' m'.2).isEmpty = false → g' ∈ (processMember st a).existing := by
        intro m' hm' g' hg' hr'
        rw [hstep.1]
        exact hsat m' (List.mem_cons_of_mem a hm') g' hg' hr'
      exact ih (processMember st a) hsat' m hmas g hg hr

/-! ### The claims -/

/-- Claim C1: parsing an archive whose single member "42" contains the
text 7-tab-0.55-newline yields exactly one record with gene_id_1 = 42,
gene_id_2 = 7 and association = 0.55, and the assembled table holds
exactly that one row. -/
theorem claim_C1 :
    parseArchive [("42", "7\t0.55\n")] = [⟨42, 7, 0.55⟩]
      ∧ mkDataFrame (parseArchive [("42", "7\t0.55\n")])
        = ⟨[("gene_id_1", [PyValue.int 42]), ("gene_id_2", [PyValue.int 7]),
            ("association", [PyValue.float 0.55])]⟩ := by
  have h : (0.55 : Rat) = mkRat 55 100 := by rw [Rat.mkRat_eq_div]; norm_num
  rw [h]
  exact ⟨by decide, by decide⟩

/-- Claim C2: malformed content never aborts the parse: a member whose
name is not an integer contributes nothing, a line with fewer than two
tab-separated fields or an ill-typed field is skipped, and a member with
one good line and one line with a non-numeric second field yields exactly
one record. -/
theorem claim_C2 :
    (∀ (name content : String) (rest : Archive), pyInt name = Option.none →
        parseArchive ((name, content) :: rest) = parseArchive rest)
      ∧ (∀ (g : Int) (line : List Char), (splitOnChar '\t' line).length < 2 →
          parseLine g line = Option.none)
      ∧ (∀ (g : Int) (line : List Char) (p0 p1 : List Char) (ps : List (List Char)),
          splitOnChar '\t' line = p0 :: p1 :: ps →
          pyIntChars p0 = Option.none ∨ pyFloatChars p1 = Option.none →
          parseLine g line = Option.none)
      ∧ parseArchive [("42", "7\t0.55\n8\tabc\n")] = [⟨42, 7, 0.55⟩] := by
  have h055 : (0.55 : Rat) = mkRat 55 100 := by rw [Rat.mkRat_eq_div]; norm_num
  refine ⟨?_, ?_, ?_, ?_⟩
  · intro name content rest h
    by_cases hk : keepName name = true
    · simp [parseArchive, memberList, List.filter_cons, hk, memberRecords, h]
    · simp [parseArchive, memberList, List.filter_cons, hk]
  · intro g line hlen
    unfold parseLine
    by_cases he : line.isEmpty
    · simp [he]
    · simp only [he, Bool.false_eq_true, if_false]
      rcases hs : splitOnChar '\t' line with _ | ⟨p0, _ | ⟨p1, t2⟩⟩
      · rfl
      · rfl
      · rw [hs] at hlen
        simp only [List.length_cons] at hlen
        omega
  · intro g line p0 p1 ps hs hbad
    unfold parseLine
    by_cases he : line.isEmpty
    · simp [he]
    · simp only [he, Bool.false_eq_true, if_false]
      rw [hs]
      rcases hbad with hb | hb
      · simp [hb]
      · cases hp : pyIntChars p0 <;> simp [hp, hb]
  · rw [h055]
    decide

/-- Claim C6: an unsupported modality fails with InvalidArgument for every
species, directory content and version: the result does not depend on the
filesystem at all. -/
theorem claim_C6 (species modality : String) (files : List (String × Archive))
    (version : Option String)
    (h1 : modality ≠ "microarray") (h2 : modality ≠ "rna-seq") (h3 : modality ≠ "union") :
    load species modality files version
      = Except.error (LoadError.invalidArgument
          ("Invalid modality: " ++ modality ++ ". Must be one of: microarray, rna-seq, union")) := by
  have e1 : (modality == "microarray") = false := beq_eq_false_iff_ne.mpr h1
  have e2 : (modality == "rna-seq") = false := beq_eq_false_iff_ne.mpr h2
  have e3 : (modality == "union") = false := beq_eq_false_iff_ne.mpr h3
  have hlk : modalityMap.lookup modality = Option.none := by
    simp [modalityMap, List.lookup, e1, e2, e3]
  simp [load, locate, hlk]

/-- Claim C9: with a non-empty version argument the species argument is
irrelevant: the glob stem is built from the version alone and the load
result is identical for any two species strings. -/
theorem claim_C9 (s1 s2 modality : String) (files : List (String × Archive)) (v : String)
    (hv : v ≠ "") :
    (∀ code : String, patStem s1 code (some v) = patStem s2 code (some v))
      ∧ load s1 modality files (some v) = load s2 modality files (some v) := by
  have hstem : ∀ code : String, patStem s1 code (some v) = patStem s2 code (some v) := by
    intro code
    simp [patStem, hv]
  refine ⟨hstem, ?_⟩
  have hloc : locate s1 modality (files.map Prod.fst) (some v)
      = locate s2 modality (files.map Prod.fst) (some v) := by
    unfold locate
    cases hlk : modalityMap.lookup modality with
    | none => rfl
    | some code =>
      dsimp only
      rw [hstem code]
  unfold load
  rw [hloc]

/-- Claim C10: when the selected archive yields no record at all, the
assembled frame has no columns, the strict schema check fails, and the
loader fails with SchemaViolation rather than returning an empty table. -/
theorem claim_C10 (species modality : String) (files : List (String × Archive))
    (version : Option String) (zipName : String)
    (hloc : locate species modality (files.map Prod.fst) version = Except.ok zipName)
    (hempty : parseArchive ((files.lookup zipName).getD []) = []) :
    mkDataFrame (parseArchive ((files.lookup zipName).getD [])) = ⟨[]⟩
      ∧ validateDataFrame (mkDataFrame (parseArchive ((files.lookup zipName).getD []))) = false
      ∧ load species modality files version = Except.error LoadError.schemaViolation := by
  refine ⟨by rw [hempty]; rfl, by rw [hempty]; decide, ?_⟩
  unfold load
  rw [hloc]
  dsimp only
  unfold loadArchive
  rw [hempty]
  decide

/-- Claim C4: with two or more matching archives and no version, the load
fails with AmbiguousSelection carrying every candidate filename, and the
result is the same for any archive contents behind the same filenames, so
no archive is opened or parsed. -/
theorem claim_C4 (species modality code : String) (files : List (String × Archive))
    (m : String) (ms : List String)
    (hcode : modalityMap.lookup modality = some code)
    (hm : sortedMatches (patStem species code Option.none) (files.map Prod.fst) = m :: ms)
    (hlen : ms ≠ []) :
    load species modality files Option.none
        = Except.error (LoadError.ambiguousSelection (m :: ms))
      ∧ (∀ x, x ∈ m :: ms ↔
          x ∈ (files.map Prod.fst).filter
            (fun n => globMatch (patStem species code Option.none) n))
      ∧ ∀ files2 : List (String × Archive), files2.map Prod.fst = files.map Prod.fst →
          load species modality files2 Option.none = load species modality files Option.none := by
  have hpos : 0 < ms.length := List.length_pos.mpr hlen
  have key : ∀ fs : List (String × Archive), fs.map Prod.fst = files.map Prod.fst →
      load species modality fs Option.none
        = Except.error (LoadError.ambiguousSelection (m :: ms)) := by
    intro fs hfs
    unfold load locate
    rw [hfs, hcode]
    dsimp only
    rw [hm]
    dsimp only
    rw [if_pos ⟨hpos, rfl⟩]
  refine ⟨key files rfl, ?_, fun files2 h2 => (key files2 h2).trans (key files rfl).symm⟩
  intro x
  rw [← hm]
  exact (List.perm_insertionSort fileLe _).mem_iff

/-- Claim C5: with a version given and several matches, the locator picks
the lexicographically last matching filename and the load reads exactly
that archive; with exactly one match, that archive is picked whether or
not a version was given. -/
theorem claim_C5 (species modality code : String) (files : List (String × Archive))
    (version : Option String) (hcode : modalityMap.lookup modality = some code) :
    (∀ (m : String) (ms : List String), version.isSome = true →
        sortedMatches (patStem species code version) (files.map Prod.fst) = m :: ms →
        locate species modality (files.map Prod.fst) version = Except.ok (ms.getLastD m)
          ∧ ms.getLastD m
              ∈ (files.map Prod.fst).filter (fun n => globMatch (patStem species code version) n)
          ∧ (∀ x ∈ (files.map Prod.fst).filter
              (fun n => globMatch (patStem species code version) n), fileLe x (ms.getLastD m))
          ∧ load species modality files version
              = loadArchive ((files.lookup (ms.getLastD m)).getD []))
      ∧ (∀ x : String,
          sortedMatches (patStem species code version) (files.map Prod.fst) = [x] →
          locate species modality (files.map Prod.fst) version = Except.ok x
            ∧ load species modality files version = loadArchive ((files.lookup x).getD [])) := by
  constructor
  · intro m ms hv hm
    have hcond : ¬ (0 < ms.length ∧ version = Option.none) := by
      rintro ⟨-, hnone⟩
      rw [hnone] at hv
      cases hv
    have hloc : locate species modality (files.map Prod.fst) version
        = Except.ok (ms.getLastD m) := by
      unfold locate
      rw [hcode]
      dsimp only
      rw [hm]
      dsimp only
      rw [if_neg hcond]
    have hmem : ms.getLastD m
        ∈ (files.map Prod.fst).filter (fun n => globMatch (patStem species code version) n) := by
      have h1 : ms.getLastD m ∈ m :: ms := getLastD_mem ms m
      rw [← hm] at h1
      exact (List.perm_insertionSort fileLe _).mem_iff.mp h1
    have hsorted : List.Sorted fileLe (m :: ms) := by
      rw [← hm]
      exact List.sorted_insertionSort fileLe _
    refine ⟨hloc, hmem, ?_, ?_⟩
    · intro x hx
      have hx' : x ∈ m :: ms := by
        rw [← hm]
        exact (List.perm_insertionSort fileLe _).mem_iff.mpr hx
      exact sorted_getLastD_max ms m hsorted x hx'
    · unfold load
      rw [hloc]
  · intro x hx
    have hloc : locate species modality (files.map Prod.fst) version = Except.ok x := by
      unfold locate
      rw [hcode]
      dsimp only
      rw [hx]
      dsimp only
      simp
    refine ⟨hloc, ?_⟩
    unfold load
    rw [hloc]

/-- Claim C7: the strict schema check rejects a gene_id_1 column holding a
text value and rejects a table without the association column; any table
it accepts has only the three schema columns, all three present, with
integer gene columns and a float association column. -/
theorem claim_C7 :
    (∀ (df : DataFrame) (vs : List PyValue) (s : String),
        colLookup df "gene_id_1" = some vs → PyValue.str s ∈ vs →
        validateDataFrame df = false)
      ∧ (∀ df : DataFrame, colLookup df "association" = Option.none →
          validateDataFrame df = false)
      ∧ (∀ df : DataFrame, validateDataFrame df = true →
          (∀ c ∈ df.cols, c.1 = "gene_id_1" ∨ c.1 = "gene_id_2" ∨ c.1 = "association")
            ∧ (∃ vs, colLookup df "gene_id_1" = some vs ∧ vs.all isIntVal = true)
            ∧ (∃ vs, colLookup df "gene_id_2" = some vs ∧ vs.all isIntVal = true)
            ∧ (∃ vs, colLookup df "association" = some vs ∧ vs.all isFloatVal = true)) := by
  refine ⟨?_, ?_, ?_⟩
  · intro df vs s hlk hmem
    have hall : vs.all isIntVal = false :=
      List.all_eq_false.mpr ⟨PyValue.str s, hmem, by simp [isIntVal]⟩
    simp [validateDataFrame, hlk, hall]
  · intro df hlk
    simp [validateDataFrame, hlk]
  · intro df h
    simp only [validateDataFrame, Bool.and_eq_true] at h
    obtain ⟨⟨⟨h1, h2⟩, h3⟩, h4⟩ := h
    refine ⟨?_, ?_, ?_, ?_⟩
    · intro c hc
      have hcol := List.all_eq_true.mp h4 c hc
      simpa [Bool.or_eq_true, beq_iff_eq, or_assoc] using hcol
    · cases hlk : colLookup df "gene_id_1" with
      | none => rw [hlk] at h1; cases h1
      | some vs => rw [hlk] at h1; exact ⟨vs, rfl, h1⟩
    · cases hlk : colLookup df "gene_id_2" with
      | none => rw [hlk] at h2; cases h2
      | some vs => rw [hlk] at h2; exact ⟨vs, rfl, h2⟩
    · cases hlk : colLookup df "association" with
      | none => rw [hlk] at h3; cases h3
      | some vs => rw [hlk] at h3; exact ⟨vs, rfl, h3⟩

/-- Claim C8: whenever the parser emits at least one record, the assembled
table has exactly the three columns gene_id_1, gene_id_2, association in
that order, passes the strict schema check (integer, integer, float), has
one cell per record in every column, and holds no null cell. -/
theorem claim_C8 (ar : Archive) (r : CoexpressionRecord) (rs : List CoexpressionRecord)
    (h : parseArchive ar = r :: rs) :
    (mkDataFrame (parseArchive ar)).cols.map Prod.fst
        = ["gene_id_1", "gene_id_2", "association"]
      ∧ validateDataFrame (mkDataFrame (parseArchive ar)) = true
      ∧ (∀ c ∈ (mkDataFrame (parseArchive ar)).cols, c.2.length = (parseArchive ar).length)
      ∧ ∀ c ∈ (mkDataFrame (parseArchive ar)).cols, ∀ v ∈ c.2, v ≠ PyValue.null := by
  rw [h]
  have hdf : (mkDataFrame (r :: rs)).cols
      = [("gene_id_1", (r :: rs).map fun x => PyValue.int x.gene_id_1),
         ("gene_id_2", (r :: rs).map fun x => PyValue.int x.gene_id_2),
         ("association", (r :: rs).map fun x => PyValue.float x.association)] := by
    simp [mkDataFrame]
  refine ⟨?_, validate_mkDataFrame_cons r rs, ?_, ?_⟩
  · rw [hdf]
    rfl
  · intro c hc
    rw [hdf] at hc
    simp only [List.mem_cons, List.not_mem_nil, or_false] at hc
    rcases hc with hc | hc | hc <;> subst hc <;> simp
  · intro c hc v hv
    rw [hdf] at hc
    simp only [List.mem_cons, List.not_mem_nil, or_false] at hc
    rcases hc with hc | hc | hc <;> subst hc <;>
      (simp only [List.mem_map] at hv
       obtain ⟨x, -, hx⟩ := hv
       rw [← hx]
       simp)

/-- Claim C3 as stated is wrong on one point: a gene member whose parse
yields no record writes no artifact, so on the second run the
output-existence check does not fire for it (the member is re-parsed,
counted, and again writes nothing). Gene 5 below is a gene member of the
archive, yet no skip is recorded for it in the second run. -/
theorem claim_C3_counterexample :
    (5 : Int) ∈ memberGenes (memberList [("5", "")])
      ∧ (5 : Int) ∉
          (processZipFile [("5", "")] (processZipFile [("5", "")] []).existing).skipped
      ∧ (processZipFile [("5", "")] (processZipFile [("5", "")] []).existing).stats.files_processed
          = 1 := by
  refine ⟨by decide, by decide, by decide⟩

/-- Claim C3, amended: on a second run over the same archive with the
first run's outputs present, every gene member whose parse yields at
least one record is treated as already processed via the output-existence
check; the second run writes no new artifact, its files_processed equals
the first run's, and its records_total is 0. -/
theorem claim_C3_fixed (members : Archive) (existing0 : List Int) :
    (processZipFile members (processZipFile members existing0).existing).written = []
      ∧ (processZipFile members (processZipFile members existing0).existing).stats.files_processed
          = (processZipFile members existing0).stats.files_processed
      ∧ (processZipFile members
          (processZipFile members existing0).existing).stats.records_total = 0
      ∧ ∀ m ∈ memberList members, ∀ g, pyInt m.1 = some g →
          (parseMember g m.2).isEmpty = false →
          g ∈ (processZipFile members (processZipFile members existing0).existing).skipped := by
  have hsat : ∀ m ∈ memberList members, ∀ g, pyInt m.1 = some g →
      (parseMember g m.2).isEmpty = false →
      g ∈ (initRun (processZipFile members existing0).existing).existing := by
    intro m hm g hg hr
    exact coverage_foldl (memberList members) (initRun existing0) m g hm hg hr
  have hs := saturated_foldl (memberList members)
    (initRun (processZipFile members existing0).existing) hsat
  have hp1 := processed_foldl (memberList members) (initRun existing0)
  have hp2 := processed_foldl (memberList members)
    (initRun (processZipFile members existing0).existing)
  have hsk := skipped_coverage_foldl (memberList members)
    (initRun (processZipFile members existing0).existing) hsat
  refine ⟨hs.2.1, ?_, hs.2.2, hsk⟩
  show (List.foldl processMember (initRun (processZipFile members existing0).existing)
        (memberList members)).stats.files_processed
      = (List.foldl processMember (initRun existing0) (memberList members)).stats.files_processed
  rw [hp1, hp2]
  rfl

/-! ### Witnesses: each hypothesis-bearing claim theorem applied at a
concrete input -/

/-- Witness for C2: a member named README.txt contributes nothing, a
one-field line and a line with non-numeric second field are both skipped. -/
theorem claim_C2_witness :
    parseArchive [("README.txt", "7\t0.55\n")] = parseArchive []
      ∧ parseLine 1 ['7'] = Option.none
      ∧ parseLine 1 ['7', '\t', 'x'] = Option.none :=
  ⟨claim_C2.1 "README.txt" "7\t0.55\n" [] (by decide),
   claim_C2.2.1 1 ['7'] (by decide),
   claim_C2.2.2.1 1 ['7', '\t', 'x'] ['7'] ['x'] [] (by decide) (Or.inr (by decide))⟩

/-- Witness for the amended C3 on a one-member archive. -/
theorem claim_C3_fixed_witness :
    (processZipFile [("42", "7\t0.55\n")]
        (processZipFile [("42", "7\t0.55\n")] []).existing).written = []
      ∧ (42 : Int) ∈ (processZipFile [("42", "7\t0.55\n")]
          (processZipFile [("42", "7\t0.55\n")] []).existing).skipped :=
  ⟨(claim_C3_fixed [("42", "7\t0.55\n")] []).1,
   (claim_C3_fixed [("42", "7\t0.55\n")] []).2.2.2 ("42", "7\t0.55\n") (by decide) 42
     (by decide) (by decide)⟩

/-- Witness for C4 on a directory with two matching archives. -/
theorem claim_C4_witness :
    load "Hsa" "union" [("Hsa-u.v1.zip", []), ("Hsa-u.v2.zip", [])] Option.none
      = Except.error (LoadError.ambiguousSelection ["Hsa-u.v1.zip", "Hsa-u.v2.zip"]) :=
  (claim_C4 "Hsa" "union" "u" [("Hsa-u.v1.zip", []), ("Hsa-u.v2.zip", [])]
    "Hsa-u.v1.zip" ["Hsa-u.v2.zip"] (by decide) (by decide) (by decide)).1

/-- Witness for C5: with a version, the later of two matches is picked. -/
theorem claim_C5_witness :
    locate "Hsa" "union" (List.map Prod.fst [(("Hsa-u.v2.zip" : String), ([] : Archive)),
        ("Hsa-u.v1.zip", [])]) (some "Hsa") = Except.ok "Hsa-u.v2.zip"
      ∧ fileLe "Hsa-u.v1.zip" "Hsa-u.v2.zip" := by
  have h := (claim_C5 "Hsa" "union" "u" [("Hsa-u.v2.zip", []), ("Hsa-u.v1.zip", [])]
    (some "Hsa") (by decide)).1 "Hsa-u.v1.zip" ["Hsa-u.v2.zip"] (by decide) (by decide)
  exact ⟨h.1, h.2.2.1 "Hsa-u.v1.zip" (by decide)⟩

/-- Witness for C6 at the modality string "invalid". -/
theorem claim_C6_witness :
    load "Spo" "invalid" [] Option.none
      = Except.error (LoadError.invalidArgument
          ("Invalid modality: " ++ "invalid" ++ ". Must be one of: microarray, rna-seq, union")) :=
  claim_C6 "Spo" "invalid" [] Option.none (by decide) (by decide) (by decide)

/-- Witness for C7: a text-valued gene_id_1 column is rejected, a table
without the association column is rejected, and on an accepted table the
association column is one of the schema columns. -/
theorem claim_C7_witness :
    validateDataFrame ⟨[("gene_id_1", [PyValue.str "x"]),
        ("gene_id_2", [PyValue.int 2]), ("association", [PyValue.float (mkRat 1 2)])]⟩ = false
      ∧ validateDataFrame ⟨[("gene_id_1", [PyValue.int 1]), ("gene_id_2", [PyValue.int 2])]⟩
          = false
      ∧ (("association" : String) = "gene_id_1" ∨ ("association" : String) = "gene_id_2"
          ∨ ("association" : String) = "association") :=
  ⟨claim_C7.1 _ [PyValue.str "x"] "x" (by decide) (by decide),
   claim_C7.2.1 _ (by decide),
   (claim_C7.2.2 ⟨[("gene_id_1", [PyValue.int 1]), ("gene_id_2", [PyValue.int 2]),
       ("association", [PyValue.float (mkRat 1 2)])]⟩ (by decide)).1
     ("association", [PyValue.float (mkRat 1 2)]) (by decide)⟩

/-- Witness for C8 on the one-record archive of C1. -/
theorem claim_C8_witness :
    validateDataFrame (mkDataFrame (parseArchive [("42", "7\t0.55\n")])) = true :=
  (claim_C8 [("42", "7\t0.55\n")] ⟨42, 7, mkRat 55 100⟩ [] (by decide)).2.1

/-- Witness for C9 at two species strings differing everywhere. -/
theorem claim_C9_witness :
    patStem "aaa" "u" (some "Hsa2") = patStem "zzz" "u" (some "Hsa2")
      ∧ load "aaa" "union" [("Hsa2-u.v1.zip", [])] (some "Hsa2")
        = load "zzz" "union" [("Hsa2-u.v1.zip", [])] (some "Hsa2") := by
  have h := claim_C9 "aaa" "zzz" "union" [("Hsa2-u.v1.zip", [])] "Hsa2" (by decide)
  exact ⟨h.1 "u", h.2⟩

/-- Witness for C10: an archive holding only a README yields no record and
the load fails with SchemaViolation. -/
theorem claim_C10_witness :
    load "Hsa" "union" [("Hsa-u.v1.zip", [("README.txt", "")])] Option.none
      = Except.error LoadError.schemaViolation :=
  (claim_C10 "Hsa" "union" [("Hsa-u.v1.zip", [("README.txt", "")])] Option.none
    "Hsa-u.v1.zip" (by decide) (by decide)).2.2

end GeneConservation
